import Mathlib

/-!
Verification development for the legal-ai-assistant repository.

The repository's frontend (React) code is embedded directly; the backend
document-analysis parser described by the design document is not part of the
checked-in sources, so it is modelled from the specification text where a
claim depends on it.
-/

namespace LegalAI

/-- ASCII whitespace test used for trimming and whitespace-only checks. -/
def isWsChar (c : Char) : Bool :=
  c = ' ' || c = '\t' || c = '\n' || c = '\r'

/-- Trim ASCII whitespace from both ends of a character list. -/
def trimChars (l : List Char) : List Char :=
  ((l.dropWhile isWsChar).reverse.dropWhile isWsChar).reverse

/-- Trim a string (models JavaScript `String.prototype.trim` on ASCII input). -/
def strTrim (s : String) : String :=
  String.mk (trimChars s.data)

/-- Uppercase an ASCII letter, identity elsewhere. -/
def upChar (c : Char) : Char :=
  if 'a' ≤ c && c ≤ 'z' then Char.ofNat (c.toNat - 32) else c

/-- Lowercase an ASCII letter, identity elsewhere
(models JavaScript `toLowerCase` on ASCII input). -/
def lowChar (c : Char) : Char :=
  if 'A' ≤ c && c ≤ 'Z' then Char.ofNat (c.toNat + 32) else c

/-- Lowercase every character of a string. -/
def lowerStr (s : String) : String :=
  String.mk (s.data.map lowChar)

/-- Split a character list at newline characters. -/
def splitOnNl (l : List Char) : List (List Char) :=
  l.foldr
    (fun c acc =>
      if c = '\n' then [] :: acc
      else
        match acc with
        | [] => [[c]]
        | a :: as => (c :: a) :: as)
    [[]]

/-- Split a raw text into its lines. -/
def splitLines (t : String) : List String :=
  (splitOnNl t.data).map String.mk

/-- A string is empty or consists only of whitespace. -/
def whitespaceOnlyB (t : String) : Bool :=
  t.data.all isWsChar

/-- Join line strings with newline separators. -/
def joinLines (ls : List String) : String :=
  String.mk (List.intercalate ['\n'] (ls.map String.data))

/-! ## The analysis response parser

Modelled from the spec: the backend `AnalysisResponseParser` (section 4.1 of
the design document) is not among the checked-in sources; the definitions
below follow the specification's description of segmentation by recognized
headers, clause extraction by numbered markers, the summary guarantee and the
`EmptyInput` failure mode. -/

/-- One extracted clause of an analysis record. -/
structure ClauseEntry where
  index : Nat
  title : String
  explanation : String
  deriving DecidableEq, Repr

/-- Structured result of parsing one raw AI analysis response. -/
structure AnalysisRecord where
  summary : List String
  keyClauses : List ClauseEntry
  riskAssessment : String
  deriving DecidableEq, Repr

/-- Parser failure taxonomy: only total emptiness is an error. -/
inductive ParseError where
  | emptyInput
  deriving DecidableEq, Repr

/-- The fixed set of recognized section header markers. -/
def recognizedHeaders : List String :=
  ["EXECUTIVE SUMMARY", "KEY CLAUSES ANALYSIS", "RISK ASSESSMENT",
   "PLAIN ENGLISH EXPLANATION"]

/-- Collapse whitespace runs to single spaces. -/
def collapseWs (l : List Char) : List Char :=
  l.foldr
    (fun c acc =>
      if isWsChar c then
        match acc with
        | ' ' :: _ => acc
        | _ => ' ' :: acc
      else c :: acc)
    []

/-- Normalize one line for header recognition: strip markdown heading
prefixes, normalize whitespace, uppercase. -/
def normalizeHeader (l : String) : String :=
  String.mk
    ((trimChars (collapseWs (l.data.dropWhile
      (fun c => c = '#' || isWsChar c)))).map upChar)

/-- A line is a recognized section header. -/
def isHeaderB (l : String) : Bool :=
  recognizedHeaders.contains (normalizeHeader l)

/-- A raw text contains at least one recognized section header line. -/
def hasHeaderB (t : String) : Bool :=
  (splitLines t).any isHeaderB

/-- Fuel-indexed worker for `parseSections`; the fuel dominates the list
length at every call, so it never runs out. -/
def parseSectionsFuel : Nat → List String → List (String × List String)
  | 0, _ => []
  | _ + 1, [] => []
  | fuel + 1, l :: ls =>
    (normalizeHeader l, ls.takeWhile (fun x => !(isHeaderB x))) ::
      parseSectionsFuel fuel (ls.dropWhile (fun x => !(isHeaderB x)))

/-- Segment the lines from the first recognized header on into
(header, content) sections: each section's content is all lines up to the
next recognized header or end-of-input. -/
def parseSections (ls : List String) : List (String × List String) :=
  parseSectionsFuel ls.length ls

/-- Content of the first section carrying the given recognized header. -/
def sectionContent? (name : String) (secs : List (String × List String)) :
    Option (List String) :=
  (secs.find? (fun s => s.1 == name)).map Prod.snd

/-- Unstructured content before the first recognized header. -/
def leadOf (lines : List String) : List String :=
  lines.takeWhile (fun x => !(isHeaderB x))

/-- The recognized sections of the given lines. -/
def secsOf (lines : List String) : List (String × List String) :=
  parseSections (lines.dropWhile (fun x => !(isHeaderB x)))

/-- Content of the EXECUTIVE SUMMARY section, when present. -/
def execOf (lines : List String) : Option (List String) :=
  sectionContent? "EXECUTIVE SUMMARY" (secsOf lines)

/-- Content of the KEY CLAUSES ANALYSIS section (empty when absent). -/
def clauseSecOf (lines : List String) : List String :=
  (sectionContent? "KEY CLAUSES ANALYSIS" (secsOf lines)).getD []

/-- Content of the RISK ASSESSMENT section (empty when absent). -/
def riskOf (lines : List String) : List String :=
  (sectionContent? "RISK ASSESSMENT" (secsOf lines)).getD []

/-- A line starts with a numbered clause marker: a leading integer followed
by a separator such as a period or a closing parenthesis. -/
def isNumberedB (l : String) : Bool :=
  let cs := l.data.dropWhile isWsChar
  let ds := cs.takeWhile Char.isDigit
  let rest := cs.dropWhile Char.isDigit
  !ds.isEmpty &&
    (match rest with
     | c :: _ => c = '.' || c = ')'
     | [] => false)

/-- Fuel-indexed worker for `groupNumbered`; the fuel dominates the list
length at every call, so it never runs out. -/
def groupNumberedFuel : Nat → List String → List (String × List String)
  | 0, _ => []
  | _ + 1, [] => []
  | fuel + 1, l :: ls =>
    if isNumberedB l then
      (l, ls.takeWhile (fun x => !(isNumberedB x))) ::
        groupNumberedFuel fuel (ls.dropWhile (fun x => !(isNumberedB x)))
    else
      groupNumberedFuel fuel ls

/-- Sub-segment section content by numbered markers: each numbered line
starts one sub-segment holding the following unnumbered lines. -/
def groupNumbered (ls : List String) : List (String × List String) :=
  groupNumberedFuel ls.length ls

/-- A sentence-break character ending a clause title. -/
def isBreakChar (c : Char) : Bool :=
  c = '.' || c = ':'

/-- Build one clause entry from a numbered sub-segment: the text after the
number up to the first sentence break or line break becomes the title, the
remainder becomes the explanation. -/
def mkClause (i : Nat) (g : String × List String) : ClauseEntry :=
  let cs := (((g.1.data.dropWhile isWsChar).dropWhile Char.isDigit).dropWhile
    (fun c => c = '.' || c = ')')).dropWhile isWsChar
  let titleCs := cs.takeWhile (fun c => !(isBreakChar c))
  let afterCs := trimChars ((cs.dropWhile (fun c => !(isBreakChar c))).drop 1)
  let explLines := (if afterCs.isEmpty then [] else [String.mk afterCs]) ++ g.2
  { index := i
    title := String.mk (trimChars titleCs)
    explanation := joinLines explLines }

/-- Number the sub-segments consecutively from a starting index. -/
def numberClauses : Nat → List (String × List String) → List ClauseEntry
  | _, [] => []
  | i, g :: gs => mkClause i g :: numberClauses (i + 1) gs

/-- Extract the clause entries of the KEY CLAUSES ANALYSIS content; with no
numbered markers the whole section degrades to a single entry titled
"General Clauses" with index 1. -/
def extractClauses (content : List String) : List ClauseEntry :=
  match groupNumbered content with
  | [] => [{ index := 1, title := "General Clauses",
             explanation := joinLines content }]
  | gs => numberClauses 1 gs

/-- Fixed placeholder block signaling that no summary was extracted. -/
def placeholderSummary : String :=
  "No summary extracted"

/-- The summary blocks: the unstructured leading content followed by the
EXECUTIVE SUMMARY content, or the placeholder when both are absent. -/
def summaryOf (lines : List String) : List String :=
  if (leadOf lines ++ (execOf lines).getD []).isEmpty then [placeholderSummary]
  else leadOf lines ++ (execOf lines).getD []

/-- Assemble the analysis record for a non-empty raw text. -/
def buildRecord (lines : List String) : AnalysisRecord :=
  { summary := summaryOf lines
    keyClauses := extractClauses (clauseSecOf lines)
    riskAssessment := joinLines (riskOf lines) }

/-- Modelled from the spec: the `AnalysisResponseParser` entry point of the
missing backend. It fails with `EmptyInput` exactly on empty or
whitespace-only input and otherwise degrades to best-effort structured
output. -/
def parseAnalysis (t : String) : Except ParseError AnalysisRecord :=
  if whitespaceOnlyB t then Except.error ParseError.emptyInput
  else Except.ok (buildRecord (splitLines t))

instance {ε α : Type} [DecidableEq ε] [DecidableEq α] :
    DecidableEq (Except ε α) := fun a b =>
  match a, b with
  | Except.ok x, Except.ok y => decidable_of_iff (x = y) (by simp)
  | Except.ok _, Except.error _ => Decidable.isFalse (by simp)
  | Except.error _, Except.ok _ => Decidable.isFalse (by simp)
  | Except.error e, Except.error f => decidable_of_iff (e = f) (by simp)

/-! ## Frontend embeddings

These definitions are translated from the checked-in React sources:
the `DocumentAnalysis` component of `src/unnamed/part_001` and the
`RiskMeter` / `ExportReport` components under
`src/frontend/src/components`. -/

/-- Clause shape consumed by the frontend (`clause.clause`,
`clause.explanation` in the clauses tab). -/
structure FrontClause where
  clause : String
  explanation : String
  deriving DecidableEq, Repr

/-- The analysis state held by `DocumentAnalysis` (`setAnalysis` argument). -/
structure FrontAnalysis where
  summary : String
  key_clauses : List FrontClause
  risk_assessment : String
  deriving DecidableEq, Repr

/-- A document as delivered to `DocumentAnalysis`; optional fields model
JavaScript fields that may be `undefined`. -/
structure Document where
  analysis_status : String
  summary : Option String
  key_clauses : Option (List FrontClause)
  risk_assessment : Option String
  deriving DecidableEq, Repr

/-- JavaScript truthiness of an optional string: `undefined`/`null` and the
empty string are falsy, every other string is truthy. -/
def truthyStr : Option String → Bool
  | none => false
  | some s => !s.isEmpty

/-- The analysis record the effect reconstructs from the stored document
fields, with `key_clauses || []` and `risk_assessment || ''` defaulting. -/
def storedRecord (doc : Document) : FrontAnalysis :=
  { summary := doc.summary.getD ""
    key_clauses := doc.key_clauses.getD []
    risk_assessment := doc.risk_assessment.getD "" }

/-- The `DocumentAnalysis` mount effect (src/unnamed/part_001:150-162):
a completed document with a truthy summary restores the stored record
without any analyze call; a pending document triggers `analyzeDocument`
(the backend AI call); anything else does neither. Returns the
`setAnalysis` argument (when called) and whether `analyzeDocument` runs. -/
def documentEffect (doc : Document) : Option FrontAnalysis × Bool :=
  if doc.analysis_status == "completed" && truthyStr doc.summary then
    (some (storedRecord doc), false)
  else if doc.analysis_status == "pending" then
    (none, true)
  else
    (none, false)

/-- One question/answer pair of a document's chat log. -/
structure ChatEntry where
  question : String
  answer : String
  timestamp : Nat
  deriving DecidableEq, Repr

/-- One `askQuestion` call (src/unnamed/part_001:187-210): a blank question
is ignored; on AI success the entry is appended to the history; on AI
failure the catch branch leaves the history untouched. `now` is the value
`new Date()` takes when the response arrives. -/
def askQuestionStep (history : List ChatEntry) (question : String)
    (now : Nat) (result : Except Unit String) : List ChatEntry :=
  if (strTrim question).isEmpty then history
  else
    match result with
    | Except.ok answer => history ++ [⟨question, answer, now⟩]
    | Except.error _ => history

/-- Reading the chat history renders the stored entries in order. -/
def getChatHistory (history : List ChatEntry) : List ChatEntry :=
  history

/-- The `riskLevel` switch of `getRiskPercentage`
(src/frontend/src/components/RiskMeter.js:11-16). -/
def levelSwitch (riskLevel : String) : Int :=
  if lowerStr riskLevel == "high" then 85
  else if lowerStr riskLevel == "medium" then 60
  else if lowerStr riskLevel == "low" then 25
  else 50

/-- `getRiskPercentage` (src/frontend/src/components/RiskMeter.js:6-17):
`some s` models a number-valued `riskScore` prop, `none` a non-number value;
the numeric branch applies when `0 <= s <= 100`, else the level switch. -/
def getRiskPercentage (riskLevel : String) (riskScore : Option Int) : Int :=
  match riskScore with
  | some s => if 0 ≤ s && s ≤ 100 then s else levelSwitch riskLevel
  | none => levelSwitch riskLevel

/-- The default value the `riskScore` prop takes when omitted, as it is at
every `RiskMeter` call site in this repository. -/
def defaultRiskScore : Option Int :=
  some 0

/-- Boolean leading-match test on character lists. -/
def startsWithB : List Char → List Char → Bool
  | [], _ => true
  | _ :: _, [] => false
  | c :: cs, d :: ds => c = d && startsWithB cs ds

/-- Boolean substring test on character lists
(models JavaScript `String.prototype.includes`). -/
def hasInfixB (pat : List Char) : List Char → Bool
  | [] => pat.isEmpty
  | c :: cs => startsWithB pat (c :: cs) || hasInfixB pat cs

/-- `hay.includes(pat)` on strings. -/
def containsSub (hay pat : String) : Bool :=
  hasInfixB pat.data hay.data

/-- `getRiskLevel` (src/unnamed/part_001:138-148, identically
src/frontend/src/components/ExportReport.js:25-35): falsy risk text maps to
low; otherwise case-insensitive substring matching with high before medium
before low. -/
def getRiskLevel (risk_assessment : Option String) : String :=
  if !(truthyStr risk_assessment) then "low"
  else
    let riskText := lowerStr (risk_assessment.getD "")
    if containsSub riskText "high" || containsSub riskText "severe" ||
        containsSub riskText "critical" then "high"
    else if containsSub riskText "medium" || containsSub riskText "moderate"
      then "medium"
    else "low"

/-- The claimed reading of `getRiskLevel`: absent risk text maps to low,
otherwise case-insensitive substring matching with fixed precedence. -/
def claimedRiskLevel (risk_assessment : Option String) : String :=
  match risk_assessment with
  | none => "low"
  | some t =>
    let riskText := lowerStr t
    if containsSub riskText "high" || containsSub riskText "severe" ||
        containsSub riskText "critical" then "high"
    else if containsSub riskText "medium" || containsSub riskText "moderate"
      then "medium"
    else "low"

/-! ## Helper lemmas -/

theorem mkClause_index (i : Nat) (g : String × List String) :
    (mkClause i g).index = i :=
  rfl

theorem numberClauses_map_index (gs : List (String × List String)) :
    ∀ i, (numberClauses i gs).map ClauseEntry.index =
      List.range' i gs.length := by
  induction gs with
  | nil => intro i; simp [numberClauses, List.range']
  | cons g gs ih =>
    intro i
    simp [numberClauses, List.range', ih, mkClause_index]

theorem numberClauses_length (gs : List (String × List String)) :
    ∀ i, (numberClauses i gs).length = gs.length := by
  induction gs with
  | nil => intro i; simp [numberClauses]
  | cons g gs ih => intro i; simp [numberClauses, ih]

theorem extractClauses_map_index (c : List String) :
    (extractClauses c).map ClauseEntry.index =
      List.range' 1 (extractClauses c).length := by
  unfold extractClauses
  cases h : groupNumbered c with
  | nil => simp [List.range']
  | cons g gs =>
    rw [numberClauses_map_index, numberClauses_length]

theorem parseAnalysis_ok_record {t : String} {r : AnalysisRecord}
    (h : parseAnalysis t = Except.ok r) : r = buildRecord (splitLines t) := by
  unfold parseAnalysis at h
  split at h
  · exact absurd h (by simp)
  · exact (Except.ok.injEq _ _ ▸ h).symm

/-! ## Claim theorems -/

/-- C2: the parser fails with `EmptyInput` exactly when the raw input is
empty or whitespace-only, and every non-empty input containing no
recognized section header parses to a record whose clause list is a single
degraded entry titled "General Clauses" with index 1. -/
theorem claim2_empty_input_and_degraded_clause (t : String) :
    (parseAnalysis t = Except.error ParseError.emptyInput ↔
      whitespaceOnlyB t = true) ∧
    (whitespaceOnlyB t = false → hasHeaderB t = false →
      ∃ r, parseAnalysis t = Except.ok r ∧
        r.keyClauses.map (fun c => (c.index, c.title)) =
          [(1, "General Clauses")]) := by
  constructor
  · cases h : whitespaceOnlyB t <;> simp [parseAnalysis, h]
  · intro hws hnh
    have hall : ∀ l ∈ splitLines t, isHeaderB l = false := by
      intro l hl
      simpa using List.any_eq_false.mp hnh l hl
    have hdrop : (splitLines t).dropWhile (fun x => !(isHeaderB x)) = [] :=
      List.dropWhile_eq_nil_iff.mpr (fun x hx => by simp [hall x hx])
    refine ⟨buildRecord (splitLines t), by simp [parseAnalysis, hws], ?_⟩
    have hsec : clauseSecOf (splitLines t) = [] := by
      simp [clauseSecOf, secsOf, hdrop, parseSections, parseSectionsFuel,
        sectionContent?]
    simp [buildRecord, hsec, extractClauses, groupNumbered, groupNumberedFuel]

/-- Witness for C2 at concrete inputs: the empty string fails with
`EmptyInput`, and the header-free input "x" degrades to a single
"General Clauses" entry. -/
theorem claim2_witness :
    parseAnalysis "" = Except.error ParseError.emptyInput ∧
    ∃ r, parseAnalysis "x" = Except.ok r ∧
      r.keyClauses.map (fun c => (c.index, c.title)) =
        [(1, "General Clauses")] :=
  ⟨(claim2_empty_input_and_degraded_clause "").1.mpr (by decide),
   (claim2_empty_input_and_degraded_clause "x").2 (by decide) (by decide)⟩

/-- C3: every record the parser returns has clause indices exactly
1, 2, ..., n in order, with no gaps and no repeats. -/
theorem claim3_clause_index_contiguity (t : String) (r : AnalysisRecord)
    (h : parseAnalysis t = Except.ok r) :
    r.keyClauses.map ClauseEntry.index =
      List.range' 1 r.keyClauses.length := by
  rw [parseAnalysis_ok_record h]
  exact extractClauses_map_index _

/-- Witness for C3: the record parsed from "x" has clause indices
`List.range' 1 1 = [1]`. -/
theorem claim3_witness :
    (AnalysisRecord.mk ["x"] [ClauseEntry.mk 1 "General Clauses" ""]
        "").keyClauses.map ClauseEntry.index =
      List.range' 1 (AnalysisRecord.mk ["x"]
        [ClauseEntry.mk 1 "General Clauses" ""] "").keyClauses.length :=
  claim3_clause_index_contiguity "x"
    (AnalysisRecord.mk ["x"] [ClauseEntry.mk 1 "General Clauses" ""] "")
    (by decide)

/-- C5: the parser is a pure function of its input: two calls on the same
raw text yield structurally equal records. -/
theorem claim5_parser_deterministic (t : String) :
    parseAnalysis t = parseAnalysis t :=
  rfl

/-- C4: for every non-empty raw text the parser succeeds with a summary in
which the content before the first recognized header appears verbatim (as a
prefix of the summary blocks); the summary is never empty: it carries the
EXECUTIVE SUMMARY section content when present (as a suffix), and is the
fixed placeholder exactly when both that section and the leading content
are absent. -/
theorem claim4_summary_guarantee (t : String)
    (hws : whitespaceOnlyB t = false) :
    ∃ r, parseAnalysis t = Except.ok r ∧
      leadOf (splitLines t) <+: r.summary ∧
      r.summary ≠ [] ∧
      (∀ c, execOf (splitLines t) = some c → c <:+ r.summary) ∧
      (execOf (splitLines t) = none → leadOf (splitLines t) = [] →
        r.summary = [placeholderSummary]) := by
  refine ⟨buildRecord (splitLines t), by simp [parseAnalysis, hws],
    ?_, ?_, ?_, ?_⟩ <;>
    simp only [buildRecord, summaryOf]
  · split
    · next h =>
      have hlead :=
        (List.append_eq_nil.mp (List.isEmpty_iff.mp h)).1
      simp [hlead]
    · next => exact List.prefix_append _ _
  · split
    · next => simp
    · next h =>
      intro hc
      exact h (by simp [hc])
  · intro c hc
    split
    · next h =>
      have hexec :=
        (List.append_eq_nil.mp (List.isEmpty_iff.mp h)).2
      rw [hc] at hexec
      simp only [Option.getD_some] at hexec
      rw [hexec]
      exact List.nil_suffix
    · next =>
      rw [hc]
      simp only [Option.getD_some]
      exact List.suffix_append _ _
  · intro hnone hlead
    split
    · next => rfl
    · next h =>
      exact absurd (by simp [hnone, hlead]) h

/-- Witness for C4 at the input "pre\nEXECUTIVE SUMMARY\nsum". -/
theorem claim4_witness :
    ∃ r, parseAnalysis "pre\nEXECUTIVE SUMMARY\nsum" = Except.ok r ∧
      leadOf (splitLines "pre\nEXECUTIVE SUMMARY\nsum") <+: r.summary ∧
      r.summary ≠ [] ∧
      (∀ c, execOf (splitLines "pre\nEXECUTIVE SUMMARY\nsum") = some c →
        c <:+ r.summary) ∧
      (execOf (splitLines "pre\nEXECUTIVE SUMMARY\nsum") = none →
        leadOf (splitLines "pre\nEXECUTIVE SUMMARY\nsum") = [] →
        r.summary = [placeholderSummary]) :=
  claim4_summary_guarantee "pre\nEXECUTIVE SUMMARY\nsum" (by decide)

/-- C1: on a document satisfying the data-model invariant (a completed
document carries its stored summary), the mount effect of
`DocumentAnalysis` serves a completed document from the stored record with
no analyze call, and the analyze call fires exactly for a pending
document. -/
theorem claim1_cache_short_circuit (doc : Document)
    (hinv : doc.analysis_status = "completed" →
      truthyStr doc.summary = true) :
    (doc.analysis_status = "completed" →
      documentEffect doc = (some (storedRecord doc), false)) ∧
    ((documentEffect doc).2 = true ↔ doc.analysis_status = "pending") := by
  constructor
  · intro h
    simp [documentEffect, h, hinv h]
  · unfold documentEffect
    by_cases h1 : doc.analysis_status = "completed"
    · simp [h1, hinv h1]
    · by_cases h2 : doc.analysis_status = "pending"
      · simp [h1, h2]
      · simp [h1, h2]

/-- A completed document with its stored analysis fields present. -/
def sampleCompletedDoc : Document :=
  { analysis_status := "completed"
    summary := some "Lease summary"
    key_clauses := some [FrontClause.mk "Payment Terms" "Rent due monthly"]
    risk_assessment := some "Low risk" }

/-- Witness for C1 at a concrete completed document. -/
theorem claim1_witness :
    (sampleCompletedDoc.analysis_status = "completed" →
      documentEffect sampleCompletedDoc =
        (some (storedRecord sampleCompletedDoc), false)) ∧
    ((documentEffect sampleCompletedDoc).2 = true ↔
      sampleCompletedDoc.analysis_status = "pending") :=
  claim1_cache_short_circuit sampleCompletedDoc (fun _ => by decide)

/-- C6: asking three questions in order, each answered successfully with
the clock advancing, appends exactly three entries in call order — even for
identical repeated questions — and the rendered chat history lists them in
that order with strictly increasing timestamps. -/
theorem claim6_chat_append_ordering (h0 : List ChatEntry)
    (q1 q2 q3 a1 a2 a3 : String) (t1 t2 t3 : Nat)
    (hq1 : (strTrim q1).isEmpty = false)
    (hq2 : (strTrim q2).isEmpty = false)
    (hq3 : (strTrim q3).isEmpty = false)
    (h12 : t1 < t2) (h23 : t2 < t3) :
    getChatHistory (askQuestionStep (askQuestionStep (askQuestionStep h0
        q1 t1 (Except.ok a1)) q2 t2 (Except.ok a2)) q3 t3
        (Except.ok a3)) =
      h0 ++ [ChatEntry.mk q1 a1 t1, ChatEntry.mk q2 a2 t2,
        ChatEntry.mk q3 a3 t3] ∧
    List.Chain' (fun e e2 => e.timestamp < e2.timestamp)
      [ChatEntry.mk q1 a1 t1, ChatEntry.mk q2 a2 t2,
        ChatEntry.mk q3 a3 t3] := by
  constructor
  · simp [getChatHistory, askQuestionStep, hq1, hq2, hq3]
  · simp [List.chain'_cons, h12, h23]

/-- Witness for C6: the same question asked three times at clock values
0, 1, 2 yields three separate entries in call order. -/
theorem claim6_witness :
    getChatHistory (askQuestionStep (askQuestionStep (askQuestionStep []
        "What are the payment terms?" 0 (Except.ok "Rent is due monthly."))
        "What are the payment terms?" 1 (Except.ok "Rent is due monthly."))
        "What are the payment terms?" 2 (Except.ok "See section 3.")) =
      [] ++ [ChatEntry.mk "What are the payment terms?"
          "Rent is due monthly." 0,
        ChatEntry.mk "What are the payment terms?" "Rent is due monthly." 1,
        ChatEntry.mk "What are the payment terms?" "See section 3." 2] ∧
    List.Chain' (fun e e2 => e.timestamp < e2.timestamp)
      [ChatEntry.mk "What are the payment terms?" "Rent is due monthly." 0,
        ChatEntry.mk "What are the payment terms?" "Rent is due monthly." 1,
        ChatEntry.mk "What are the payment terms?" "See section 3." 2] :=
  claim6_chat_append_ordering [] _ _ _ _ _ _ 0 1 2 (by decide) (by decide)
    (by decide) (by decide) (by decide)

/-- C7: a failed question leaves the chat log unchanged: the catch branch
of `askQuestion` appends nothing. -/
theorem claim7_failed_question_preserves_log (history : List ChatEntry)
    (question : String) (now : Nat) :
    askQuestionStep history question now (Except.error ()) =
      getChatHistory history := by
  unfold askQuestionStep getChatHistory
  split <;> rfl

/-- C9: with the `riskScore` prop omitted — as at every call site in this
repository — the default 0 takes the numeric branch and the meter shows 0%
for every `riskLevel`, leaving the level-to-percentage switch
(high 85, medium 60, low 25) unreachable. -/
theorem claim9_riskmeter_always_zero (riskLevel : String) :
    getRiskPercentage riskLevel defaultRiskScore = 0 ∧
    levelSwitch "high" = 85 ∧ levelSwitch "medium" = 60 ∧
    levelSwitch "low" = 25 := by
  refine ⟨?_, by decide, by decide, by decide⟩
  simp [getRiskPercentage, defaultRiskScore]

/-- C10: `getRiskLevel` agrees with its claimed description —
case-insensitive substring matching with precedence high, medium, low and
low for absent risk text — including matches inside longer words such as
"highlights". -/
theorem claim10_risk_level_classification :
    (∀ ra : Option String, getRiskLevel ra = claimedRiskLevel ra) ∧
    getRiskLevel (some "The document highlights key sections") = "high" ∧
    getRiskLevel (some "Overall risk: MODERATE") = "medium" ∧
    getRiskLevel none = "low" := by
  refine ⟨?_, by decide, by decide, by decide⟩
  intro ra
  match ra with
  | none => rfl
  | some t =>
    by_cases h : t = ""
    · subst h; decide
    · have ht : truthyStr (some t) = true := by
        have he : t.isEmpty = false := by
          cases he : t.isEmpty
          · rfl
          · exact absurd ((String.isEmpty_iff t).mp he) h
        simp [truthyStr, he]
      simp [getRiskLevel, claimedRiskLevel, ht]

end LegalAI
